import Mathlib

set_option maxHeartbeats 1000000
set_option autoImplicit false

/- Verification of the PyAlexa repository.

   Part 1 embeds the request dispatcher of src/pyalexaskill/AlexaBaseHandler.py:
   events are already-parsed Python values (PyVal), dictionary subscripting and
   the `in` operator are fallible operations returning `Except PyErr`, the
   abstract handler methods of the base class are a structure of functions
   supplied by a concrete subclass, and `process_request` returns its result
   together with the list of handler invocations it performed.

   Part 2 embeds the deployment-directory numbering of
   src/bin/create_aws_lambda.py, with directory names as lists of character
   codes so that `name.split("_")` and `int(...)` can be reasoned about. -/

/-- A Python value, restricted to the shapes the dispatcher reads:
`None`, booleans, strings and string-keyed dictionaries. -/
inductive PyVal where
  | none : PyVal
  | bool : Bool → PyVal
  | str : String → PyVal
  | dict : List (String × PyVal) → PyVal

/-- A Python exception, as raised by the embedded code. `other` stands for
any further exception a concrete handler implementation may raise. -/
inductive PyErr where
  | valueError : String → PyErr
  | keyError : String → PyErr
  | typeError : String → PyErr
  | other : String → PyErr
  deriving DecidableEq

/-- First-match lookup in a dictionary's entry list. -/
def lookupEntries : List (String × PyVal) → String → Option PyVal
  | [], _ => Option.none
  | (k, v) :: rest, key => if k = key then Option.some v else lookupEntries rest key

/-- Python subscripting `v[k]`: a KeyError when the key is missing, a
TypeError when the value is not a dictionary. -/
def getItem : PyVal → String → Except PyErr PyVal
  | PyVal.dict l, k =>
    match lookupEntries l k with
    | Option.some v => Except.ok v
    | Option.none => Except.error (PyErr.keyError k)
  | _, _ => Except.error (PyErr.typeError "object is not subscriptable")

/-- Whether the character-code sequence `needle` occurs at the front of `hay`. -/
def listStartsWith : List Char → List Char → Bool
  | _, [] => true
  | [], _ :: _ => false
  | a :: as, b :: bs => (a = b) && listStartsWith as bs

/-- Whether `needle` occurs contiguously anywhere in `hay`. -/
def listContainsSeq : List Char → List Char → Bool
  | [], needle => needle.isEmpty
  | a :: rest, needle => listStartsWith (a :: rest) needle || listContainsSeq rest needle

/-- Python `k in v`: key containment for dictionaries, substring test for
strings, a TypeError otherwise. -/
def pyIn (k : String) (v : PyVal) : Except PyErr Bool :=
  match v with
  | PyVal.dict l => Except.ok (lookupEntries l k).isSome
  | PyVal.str s => Except.ok (listContainsSeq s.data k.data)
  | _ => Except.error (PyErr.typeError "argument is not iterable")

/-- Python truthiness of a value, as used by `if event['session']['new']:`. -/
def truthy : PyVal → Bool
  | PyVal.none => false
  | PyVal.bool b => b
  | PyVal.str s => !(s.isEmpty)
  | PyVal.dict l => !(l.isEmpty)

/-- Python `v == s` for a string literal `s`: true exactly when `v` is that
string (comparison of a non-string against a string is unequal, not an error). -/
def pyEqStr (v : PyVal) (s : String) : Bool :=
  match v with
  | PyVal.str t => decide (t = s)
  | _ => false

/-- Python `v is None`. -/
def isNone : PyVal → Bool
  | PyVal.none => true
  | _ => false

/-- The named handler methods of AlexaBaseHandler that `process_request`
may dispatch to. -/
inductive HandlerName where
  | launch
  | sessionStarted
  | intent
  | helpIntent
  | stopIntent
  | cancelIntent
  | noIntent
  | yesIntent
  | repeatIntent
  | startOverIntent
  | sessionEnded
  deriving DecidableEq

/-- One recorded handler invocation: either a normal `on_` handler receiving
a request object and a session object, or the error hook receiving the whole
event, the context and the exception. -/
inductive HandlerCall where
  | call : HandlerName → PyVal → PyVal → HandlerCall
  | errorCall : PyVal → PyVal → PyErr → HandlerCall

/-- The behavior a concrete subclass supplies for the abstract methods of
AlexaBaseHandler.  Each handler may return a value or raise. -/
structure Handlers where
  on_launch : PyVal → PyVal → Except PyErr PyVal
  on_session_started : PyVal → PyVal → Except PyErr PyVal
  on_intent : PyVal → PyVal → Except PyErr PyVal
  on_help_intent : PyVal → PyVal → Except PyErr PyVal
  on_stop_intent : PyVal → PyVal → Except PyErr PyVal
  on_cancel_intent : PyVal → PyVal → Except PyErr PyVal
  on_no_intent : PyVal → PyVal → Except PyErr PyVal
  on_yes_intent : PyVal → PyVal → Except PyErr PyVal
  on_repeat_intent : PyVal → PyVal → Except PyErr PyVal
  on_start_over_intent : PyVal → PyVal → Except PyErr PyVal
  on_session_ended : PyVal → PyVal → Except PyErr PyVal
  on_processing_error : PyVal → PyVal → PyErr → Except PyErr PyVal

/-- Replace only the session-started hook of a handler set. -/
def Handlers.withSessionStarted (h : Handlers) (f : PyVal → PyVal → Except PyErr PyVal) :
    Handlers :=
  { h with on_session_started := f }

/-- `_get_intent`: the `intent` sub-object when present, `None` otherwise
(AlexaBaseHandler.py lines 231-235). -/
def _get_intent (intent_request : PyVal) : Except PyErr PyVal :=
  match pyIn "intent" intent_request with
  | Except.error e => Except.error e
  | Except.ok b =>
    if b then getItem intent_request "intent" else Except.ok PyVal.none

/-- `_get_intent_name`: the intent's `name` when the intent and the field are
both present, `None` otherwise (AlexaBaseHandler.py lines 237-243). -/
def _get_intent_name (intent_request : PyVal) : Except PyErr PyVal :=
  match _get_intent intent_request with
  | Except.error e => Except.error e
  | Except.ok intent =>
    if isNone intent then Except.ok PyVal.none
    else
      match pyIn "name" intent with
      | Except.error e => Except.error e
      | Except.ok b =>
        if b then getItem intent "name" else Except.ok PyVal.none

/-- `_slot_exists`: when an intent is present, `slot_name in intent['slots']`
(note the unguarded `intent['slots']` subscript), else `False`
(AlexaBaseHandler.py lines 245-250). -/
def _slot_exists (slot_name : String) (intent_request : PyVal) : Except PyErr Bool :=
  match _get_intent intent_request with
  | Except.error e => Except.error e
  | Except.ok intent =>
    if isNone intent then Except.ok false
    else
      match getItem intent "slots" with
      | Except.error e => Except.error e
      | Except.ok slots => pyIn slot_name slots

/-- The body of the `try` block of `_get_slot_value`
(AlexaBaseHandler.py lines 254-259). -/
def slotValueBody (slot_name : String) (intent_request : PyVal) : Except PyErr PyVal :=
  match _slot_exists slot_name intent_request with
  | Except.error e => Except.error e
  | Except.ok ex =>
    if ex then
      match _get_intent intent_request with
      | Except.error e => Except.error e
      | Except.ok intent =>
        match getItem intent "slots" with
        | Except.error e => Except.error e
        | Except.ok slots =>
          match getItem slots slot_name with
          | Except.error e => Except.error e
          | Except.ok slot => getItem slot "value"
    else Except.ok PyVal.none

/-- `_get_slot_value`: `value` starts as `None`, the try body may update it,
and every exception is caught (logged) so the function always returns
(AlexaBaseHandler.py lines 252-263). -/
def _get_slot_value (slot_name : String) (intent_request : PyVal) : PyVal :=
  match slotValueBody slot_name intent_request with
  | Except.ok v => v
  | Except.error _ => PyVal.none

/-- The origin check at the top of `process_request`
(AlexaBaseHandler.py lines 148-149): when `self.app_id` is truthy and
`event['session']['application']['applicationId']` differs from it, raise
`ValueError("Invalid Application ID")`. -/
def originCheck (app_id : Option String) (event : PyVal) : Except PyErr Unit :=
  match app_id with
  | Option.none => Except.ok ()
  | Option.some s =>
    if s.isEmpty then Except.ok ()
    else
      match getItem event "session" with
      | Except.error e => Except.error e
      | Except.ok sess =>
        match getItem sess "application" with
        | Except.error e => Except.error e
        | Except.ok app =>
          match getItem app "applicationId" with
          | Except.error e => Except.error e
          | Except.ok aid =>
            if !(pyEqStr aid s) then
              Except.error (PyErr.valueError "Invalid Application ID")
            else Except.ok ()

/-- Invoke an `on_` handler with `event['request']` and `event['session']`
as the two arguments, recording the invocation. -/
def invokeOn (n : HandlerName) (f : PyVal → PyVal → Except PyErr PyVal) (event : PyVal) :
    Except PyErr PyVal × List HandlerCall :=
  match getItem event "request" with
  | Except.error e => (Except.error e, [])
  | Except.ok req =>
    match getItem event "session" with
    | Except.error e => (Except.error e, [])
    | Except.ok sess => (f req sess, [HandlerCall.call n req sess])

/-- The dispatch on `event['request']['type']` inside `process_request`
(AlexaBaseHandler.py lines 156-177).  An unrecognized type leaves `response`
as `None`. -/
def dispatchStep (h : Handlers) (event : PyVal) : Except PyErr PyVal × List HandlerCall :=
  match getItem event "request" with
  | Except.error e => (Except.error e, [])
  | Except.ok req =>
    match getItem req "type" with
    | Except.error e => (Except.error e, [])
    | Except.ok t =>
      if pyEqStr t "LaunchRequest" then
        invokeOn HandlerName.launch h.on_launch event
      else if pyEqStr t "IntentRequest" then
        match _get_intent_name req with
        | Except.error e => (Except.error e, [])
        | Except.ok iname =>
          if pyEqStr iname "AMAZON.HelpIntent" then
            invokeOn HandlerName.helpIntent h.on_help_intent event
          else if pyEqStr iname "AMAZON.StopIntent" then
            invokeOn HandlerName.stopIntent h.on_stop_intent event
          else if pyEqStr iname "AMAZON.CancelIntent" then
            invokeOn HandlerName.cancelIntent h.on_cancel_intent event
          else if pyEqStr iname "AMAZON.NoIntent" then
            invokeOn HandlerName.noIntent h.on_no_intent event
          else if pyEqStr iname "AMAZON.RepeatIntent" then
            invokeOn HandlerName.repeatIntent h.on_repeat_intent event
          else if pyEqStr iname "AMAZON.StartOverIntent" then
            invokeOn HandlerName.startOverIntent h.on_start_over_intent event
          else if pyEqStr iname "AMAZON.YesIntent" then
            invokeOn HandlerName.yesIntent h.on_yes_intent event
          else
            invokeOn HandlerName.intent h.on_intent event
      else if pyEqStr t "SessionEndedRequest" then
        invokeOn HandlerName.sessionEnded h.on_session_ended event
      else (Except.ok PyVal.none, [])

/-- The body of the `try` block of `process_request`
(AlexaBaseHandler.py lines 148-177): origin check, session-started
notification for new sessions, then the request-type dispatch. -/
def tryBody (h : Handlers) (app_id : Option String) (event : PyVal) :
    Except PyErr PyVal × List HandlerCall :=
  match originCheck app_id event with
  | Except.error e => (Except.error e, [])
  | Except.ok _ =>
    match getItem event "session" with
    | Except.error e => (Except.error e, [])
    | Except.ok sess =>
      match getItem sess "new" with
      | Except.error e => (Except.error e, [])
      | Except.ok newv =>
        if truthy newv then
          match getItem event "request" with
          | Except.error e => (Except.error e, [])
          | Except.ok req =>
            match getItem req "requestId" with
            | Except.error e => (Except.error e, [])
            | Except.ok rid =>
              match h.on_session_started (PyVal.dict [("requestId", rid)]) sess with
              | Except.error e =>
                (Except.error e,
                 [HandlerCall.call HandlerName.sessionStarted
                    (PyVal.dict [("requestId", rid)]) sess])
              | Except.ok _ =>
                ((dispatchStep h event).1,
                 HandlerCall.call HandlerName.sessionStarted
                    (PyVal.dict [("requestId", rid)]) sess :: (dispatchStep h event).2)
        else dispatchStep h event

/-- `process_request` (AlexaBaseHandler.py lines 138-183): run the try body;
any exception it raises is caught, logged, and handed to
`on_processing_error(event, context, exc)`, whose return value becomes the
final result. -/
def process_request (h : Handlers) (app_id : Option String) (event context : PyVal) :
    Except PyErr PyVal × List HandlerCall :=
  match tryBody h app_id event with
  | (Except.ok v, t) => (Except.ok v, t)
  | (Except.error e, t) =>
    (h.on_processing_error event context e,
     t ++ [HandlerCall.errorCall event context e])

/-- Is this trace entry an invocation of a request-type handler (anything
recorded by the dispatch, i.e. any named handler except the session-started
notification)? -/
def HandlerCall.isRequestCall : HandlerCall → Bool
  | HandlerCall.call n _ _ => !(decide (n = HandlerName.sessionStarted))
  | HandlerCall.errorCall _ _ _ => false

/-- Is this trace entry the session-started notification? -/
def HandlerCall.isSessionStartedCall : HandlerCall → Bool
  | HandlerCall.call n _ _ => decide (n = HandlerName.sessionStarted)
  | HandlerCall.errorCall _ _ _ => false

/-- Is this trace entry an invocation of the error hook? -/
def HandlerCall.isErrorCall : HandlerCall → Bool
  | HandlerCall.call _ _ _ => false
  | HandlerCall.errorCall _ _ _ => true

/-- The request-type handler invocations of a trace. -/
def requestCalls (t : List HandlerCall) : List HandlerCall :=
  t.filter HandlerCall.isRequestCall

/-- The new-session step of `process_request` completed without raising:
either the session is not new, or the `requestId` lookup succeeded and the
session-started hook returned normally. -/
def newStepOk (h : Handlers) (event sess : PyVal) : Prop :=
  ∃ newv, getItem sess "new" = Except.ok newv ∧
    (truthy newv = false ∨
      (truthy newv = true ∧
        ∃ req rid u, getItem event "request" = Except.ok req ∧
          getItem req "requestId" = Except.ok rid ∧
          h.on_session_started (PyVal.dict [("requestId", rid)]) sess = Except.ok u))

/- Part 2: deployment directory numbering from src/bin/create_aws_lambda.py.
   Directory names are lists of character codes, so that Python's
   name.split("_") and int(...) can be modeled directly.  The filesystem state
   relevant to `_make_deployment_dir` is the list of immediate subdirectory
   names of the deployments directory. -/

/-- The character code of the separator in `name.split("_")`. -/
def underscore : Nat := 95

/-- The character codes of a string literal. -/
def strChars (s : String) : List Nat := s.data.map Char.toNat

/-- Python `s.split(sep)` for a one-character separator: empty parts are kept,
and the empty string splits into one empty part. -/
def splitOnSep (sep : Nat) : List Nat → List (List Nat)
  | [] => [[]]
  | c :: rest =>
    if c = sep then [] :: splitOnSep sep rest
    else
      match splitOnSep sep rest with
      | [] => [[c]]
      | x :: xs => (c :: x) :: xs

/-- Is this character code an ASCII decimal digit? -/
def isDigitCode (c : Nat) : Bool := decide (48 ≤ c) && decide (c ≤ 57)

/-- Accumulate the decimal value of a digit run; any non-digit fails. -/
def parseDigitsAux : Nat → List Nat → Option Nat
  | acc, [] => Option.some acc
  | acc, c :: rest =>
    if isDigitCode c then parseDigitsAux (acc * 10 + (c - 48)) rest else Option.none

/-- The value of a nonempty run of decimal digits, if the list is one. -/
def parseDigits : List Nat → Option Nat
  | [] => Option.none
  | c :: rest => parseDigitsAux 0 (c :: rest)

/-- Python `int(s)`: an optional sign followed by at least one decimal digit;
anything else raises ValueError.  (Surrounding whitespace, which Python also
accepts, cannot occur in the names this script compares and is not modeled.) -/
def pyIntChars (s : List Nat) : Except PyErr Int :=
  match s with
  | [] => Except.error (PyErr.valueError "invalid literal for int")
  | c :: rest =>
    if c = 45 then
      match parseDigits rest with
      | Option.some n => Except.ok (-(n : Int))
      | Option.none => Except.error (PyErr.valueError "invalid literal for int")
    else if c = 43 then
      match parseDigits rest with
      | Option.some n => Except.ok ((n : Int))
      | Option.none => Except.error (PyErr.valueError "invalid literal for int")
    else
      match parseDigits (c :: rest) with
      | Option.some n => Except.ok ((n : Int))
      | Option.none => Except.error (PyErr.valueError "invalid literal for int")

/-- Decimal digit codes of a natural number, with enough structural fuel
(`n + 1` suffices since a number has at most `n + 1` digits). -/
def natToDigitsAux : Nat → Nat → List Nat
  | 0, _ => []
  | fuel + 1, n =>
    if n < 10 then [48 + n] else natToDigitsAux fuel (n / 10) ++ [48 + n % 10]

/-- `str(n)` for a nonnegative int: its decimal digit codes. -/
def natToDigits (n : Nat) : List Nat := natToDigitsAux (n + 1) n

/-- `str(i)` for an int: a minus sign for negative values, then the digits. -/
def intToChars (i : Int) : List Nat :=
  if i < 0 then 45 :: natToDigits i.natAbs else natToDigits i.toNat

/-- The scan of `_make_deployment_dir` (create_aws_lambda.py lines 56-61):
for every subdirectory name that splits on "_" into exactly two parts, take
`int` of the second part and keep the running maximum, starting from -1.
A non-integer second part raises ValueError. -/
def loopMax : List (List Nat) → Int → Except PyErr Int
  | [], m => Except.ok m
  | d :: rest, m =>
    match splitOnSep underscore d with
    | [_, b] =>
      match pyIntChars b with
      | Except.error e => Except.error e
      | Except.ok n => loopMax rest (if n > m then n else m)
    | _ => loopMax rest m

/-- The word before the underscore in the names this script creates. -/
def deploymentWord : List Nat := strChars "deployment"

/-- The name chosen by `_make_deployment_dir` (create_aws_lambda.py lines
63-66): a maximum of -1 is reset to 0, then the name is `deployment_` followed
by `str(max + 1)`. -/
def make_deployment_name (dirs : List (List Nat)) : Except PyErr (List Nat) :=
  match loopMax dirs (-1) with
  | Except.error e => Except.error e
  | Except.ok m0 =>
    Except.ok (deploymentWord ++ underscore ::
      intToChars ((if m0 = -1 then 0 else m0) + 1))

/-- `_make_deployment_dir` (create_aws_lambda.py lines 53-72) acting on the
abstract directory state: the chosen name is created (appended to the listing)
when it is not already present. -/
def _make_deployment_dir (dirs : List (List Nat)) :
    Except PyErr (List Nat × List (List Nat)) :=
  match make_deployment_name dirs with
  | Except.error e => Except.error e
  | Except.ok name =>
    Except.ok (name, if name ∈ dirs then dirs else dirs ++ [name])

/-- The name `deployment_k`. -/
def deploymentName (k : Nat) : List Nat :=
  deploymentWord ++ underscore :: natToDigits k

/-- The deployments directory after `n` runs of the script starting from an
empty directory: `deployment_1` through `deployment_n`, in creation order. -/
def deployDirs (n : Nat) : List (List Nat) :=
  (List.range n).map (fun i => deploymentName (i + 1))

/-- Claim-side reading (spec wording, for comparison with the code): the
integer suffix of a name that splits on "_" into exactly two parts whose
second part is an integer literal. -/
def twoPartSuffix (d : List Nat) : Option Int :=
  match splitOnSep underscore d with
  | [_, b] =>
    match pyIntChars b with
    | Except.ok n => Option.some n
    | Except.error _ => Option.none
  | _ => Option.none

/-- All integer suffixes of two-part names in a directory listing. -/
def suffixInts (dirs : List (List Nat)) : List Int :=
  dirs.filterMap twoPartSuffix

/-- Maximum of a nonempty list of ints given as head and tail. -/
def maxOfList (a : Int) (l : List Int) : Int := l.foldl max a

/-- A concrete handler set for witnesses: every handler returns normally,
with a distinct value per handler. -/
def okHandlers : Handlers :=
  ⟨fun _ _ => Except.ok (PyVal.str "launch"),
   fun _ _ => Except.ok (PyVal.str "started"),
   fun _ _ => Except.ok (PyVal.str "intent"),
   fun _ _ => Except.ok (PyVal.str "help"),
   fun _ _ => Except.ok (PyVal.str "stop"),
   fun _ _ => Except.ok (PyVal.str "cancel"),
   fun _ _ => Except.ok (PyVal.str "no"),
   fun _ _ => Except.ok (PyVal.str "yes"),
   fun _ _ => Except.ok (PyVal.str "repeated"),
   fun _ _ => Except.ok (PyVal.str "startOver"),
   fun _ _ => Except.ok (PyVal.str "ended"),
   fun _ _ _ => Except.ok (PyVal.str "recovered")⟩

/-- The dispatch table of the intent branch (the if/elif chain of
AlexaBaseHandler.py lines 160-175) as a function from the resolved intent
name to the handler that the chain selects. -/
def builtinTarget (iname : PyVal) : HandlerName :=
  if pyEqStr iname "AMAZON.HelpIntent" then HandlerName.helpIntent
  else if pyEqStr iname "AMAZON.StopIntent" then HandlerName.stopIntent
  else if pyEqStr iname "AMAZON.CancelIntent" then HandlerName.cancelIntent
  else if pyEqStr iname "AMAZON.NoIntent" then HandlerName.noIntent
  else if pyEqStr iname "AMAZON.RepeatIntent" then HandlerName.repeatIntent
  else if pyEqStr iname "AMAZON.StartOverIntent" then HandlerName.startOverIntent
  else if pyEqStr iname "AMAZON.YesIntent" then HandlerName.yesIntent
  else HandlerName.intent

/-- The handler function a handler set supplies for a given handler name. -/
def handlerFor (h : Handlers) : HandlerName → (PyVal → PyVal → Except PyErr PyVal)
  | HandlerName.launch => h.on_launch
  | HandlerName.sessionStarted => h.on_session_started
  | HandlerName.intent => h.on_intent
  | HandlerName.helpIntent => h.on_help_intent
  | HandlerName.stopIntent => h.on_stop_intent
  | HandlerName.cancelIntent => h.on_cancel_intent
  | HandlerName.noIntent => h.on_no_intent
  | HandlerName.yesIntent => h.on_yes_intent
  | HandlerName.repeatIntent => h.on_repeat_intent
  | HandlerName.startOverIntent => h.on_start_over_intent
  | HandlerName.sessionEnded => h.on_session_ended

/-- The seven reserved built-in intent names. -/
def builtinIntentNames : List PyVal :=
  [PyVal.str "AMAZON.HelpIntent", PyVal.str "AMAZON.StopIntent",
   PyVal.str "AMAZON.CancelIntent", PyVal.str "AMAZON.NoIntent",
   PyVal.str "AMAZON.RepeatIntent", PyVal.str "AMAZON.StartOverIntent",
   PyVal.str "AMAZON.YesIntent"]

/-- Witness fixture: a session object with `new = false` and application id "A". -/
def sessOldA : PyVal :=
  PyVal.dict
    [("new", PyVal.bool false),
     ("application", PyVal.dict [("applicationId", PyVal.str "A")])]

/-- Witness fixture: a session object with `new = true` and application id "A". -/
def sessNewA : PyVal :=
  PyVal.dict
    [("new", PyVal.bool true),
     ("application", PyVal.dict [("applicationId", PyVal.str "A")])]

/-- Witness fixture: a launch request object. -/
def reqLaunch : PyVal :=
  PyVal.dict [("type", PyVal.str "LaunchRequest"), ("requestId", PyVal.str "r1")]

/-- Witness fixture: an AMAZON.YesIntent intent request object. -/
def reqYes : PyVal :=
  PyVal.dict
    [("type", PyVal.str "IntentRequest"),
     ("requestId", PyVal.str "r2"),
     ("intent", PyVal.dict [("name", PyVal.str "AMAZON.YesIntent")])]

/-- Witness fixture: a request object of an unrecognized type. -/
def reqOther : PyVal :=
  PyVal.dict [("type", PyVal.str "AudioPlayerRequest"), ("requestId", PyVal.str "r3")]

/-- Witness fixture: an intent request object with no intent sub-object. -/
def reqNoIntent : PyVal :=
  PyVal.dict [("type", PyVal.str "IntentRequest"), ("requestId", PyVal.str "r4")]

/-- Witness fixture: an intent request with a slot "color" carrying value
"red". -/
def reqColor : PyVal :=
  PyVal.dict
    [("type", PyVal.str "IntentRequest"),
     ("intent", PyVal.dict
        [("name", PyVal.str "MyIntent"),
         ("slots", PyVal.dict
            [("color", PyVal.dict
                [("name", PyVal.str "color"), ("value", PyVal.str "red")])])])]

/-- Witness fixture: an intent request whose intent has no slots mapping. -/
def reqNoSlots : PyVal :=
  PyVal.dict [("intent", PyVal.dict [("name", PyVal.str "MyIntent")])]

/-- Witness fixture: a new-session launch event with application id "A". -/
def evLaunchA : PyVal :=
  PyVal.dict [("session", sessNewA), ("request", reqLaunch)]

/-- Witness fixture: a not-new-session AMAZON.YesIntent intent event. -/
def evYes : PyVal :=
  PyVal.dict [("session", sessOldA), ("request", reqYes)]

/-- Witness fixture: a not-new-session event of an unrecognized request type. -/
def evOther : PyVal :=
  PyVal.dict [("session", sessOldA), ("request", reqOther)]

/-- Witness fixture: a not-new-session intent event with no intent sub-object. -/
def evNoIntent : PyVal :=
  PyVal.dict [("session", sessOldA), ("request", reqNoIntent)]

theorem pyEqStr_true_iff (v : PyVal) (s : String) : pyEqStr v s = true ↔ v = PyVal.str s := by
  cases v <;> simp [pyEqStr]

theorem getItem_ok_shape {r : PyVal} {k : String} {v : PyVal}
    (hg : getItem r k = Except.ok v) :
    ∃ l, r = PyVal.dict l ∧ lookupEntries l k = Option.some v := by
  cases r with
  | none => simp [getItem] at hg
  | bool b => simp [getItem] at hg
  | str s => simp [getItem] at hg
  | dict l =>
    refine ⟨l, rfl, ?_⟩
    cases hl : lookupEntries l k with
    | none => simp [getItem, hl] at hg
    | some w => simp [getItem, hl] at hg; rw [hg]

theorem pyIn_true_of_lookup {l : List (String × PyVal)} {k : String} {v : PyVal}
    (hl : lookupEntries l k = Option.some v) :
    pyIn k (PyVal.dict l) = Except.ok true := by
  simp [pyIn, hl]

theorem tryBody_reach_not_new {h : Handlers} {app_id : Option String}
    {event sess newv : PyVal}
    (horigin : originCheck app_id event = Except.ok ())
    (hsess : getItem event "session" = Except.ok sess)
    (hnew : getItem sess "new" = Except.ok newv)
    (htr : truthy newv = false) :
    tryBody h app_id event = dispatchStep h event := by
  unfold tryBody
  simp only [horigin, hsess, hnew, htr, Bool.false_eq_true, if_false]

theorem tryBody_reach_new {h : Handlers} {app_id : Option String}
    {event sess newv req rid u : PyVal}
    (horigin : originCheck app_id event = Except.ok ())
    (hsess : getItem event "session" = Except.ok sess)
    (hnew : getItem sess "new" = Except.ok newv)
    (htr : truthy newv = true)
    (hreq : getItem event "request" = Except.ok req)
    (hrid : getItem req "requestId" = Except.ok rid)
    (hss : h.on_session_started (PyVal.dict [("requestId", rid)]) sess = Except.ok u) :
    tryBody h app_id event =
      ((dispatchStep h event).1,
       HandlerCall.call HandlerName.sessionStarted (PyVal.dict [("requestId", rid)]) sess
         :: (dispatchStep h event).2) := by
  unfold tryBody
  simp only [horigin, hsess, hnew, htr, hreq, hrid, hss, if_true]

theorem process_request_of_tryBody_ok {h : Handlers} {app_id : Option String}
    {event v : PyVal} {t : List HandlerCall} (context : PyVal)
    (hok : tryBody h app_id event = (Except.ok v, t)) :
    process_request h app_id event context = (Except.ok v, t) := by
  unfold process_request
  rw [hok]

theorem invokeOn_eq {n : HandlerName} {f : PyVal → PyVal → Except PyErr PyVal}
    {event req sess : PyVal}
    (hreq : getItem event "request" = Except.ok req)
    (hsess : getItem event "session" = Except.ok sess) :
    invokeOn n f event = (f req sess, [HandlerCall.call n req sess]) := by
  unfold invokeOn
  rw [hreq, hsess]

theorem originCheck_mismatch {s : String} {event sess app aid : PyVal}
    (hs : s.isEmpty = false)
    (hsess : getItem event "session" = Except.ok sess)
    (happ : getItem sess "application" = Except.ok app)
    (haid : getItem app "applicationId" = Except.ok aid)
    (hneq : pyEqStr aid s = false) :
    originCheck (Option.some s) event =
      Except.error (PyErr.valueError "Invalid Application ID") := by
  unfold originCheck
  simp [hs, hsess, happ, haid, hneq]

/-- C1: when the configured application identifier is set (truthy) and differs
from `event.session.application.applicationId`, `process_request` invokes no
handler other than the error hook: the invocation trace is exactly one
error-hook call receiving the original event, the original context and the
`ValueError "Invalid Application ID"` (the InvalidOrigin condition), and the
hook's return value is the final result. -/
theorem C1_invalid_origin_only_error_hook (h : Handlers) (s : String)
    (event context sess app aid : PyVal)
    (hs : s.isEmpty = false)
    (hsess : getItem event "session" = Except.ok sess)
    (happ : getItem sess "application" = Except.ok app)
    (haid : getItem app "applicationId" = Except.ok aid)
    (hneq : pyEqStr aid s = false) :
    process_request h (Option.some s) event context =
      (h.on_processing_error event context (PyErr.valueError "Invalid Application ID"),
       [HandlerCall.errorCall event context (PyErr.valueError "Invalid Application ID")]) := by
  have ho := originCheck_mismatch hs hsess happ haid hneq
  unfold process_request tryBody
  simp only [ho, List.nil_append]

/-- Witness for C1: configured id "B" against a concrete new-session launch
event whose application id is "A". -/
theorem C1_invalid_origin_only_error_hook_witness :
    process_request okHandlers (Option.some "B") evLaunchA PyVal.none =
      (Except.ok (PyVal.str "recovered"),
       [HandlerCall.errorCall evLaunchA PyVal.none
          (PyErr.valueError "Invalid Application ID")]) :=
  C1_invalid_origin_only_error_hook okHandlers "B" evLaunchA PyVal.none
    sessNewA (PyVal.dict [("applicationId", PyVal.str "A")]) (PyVal.str "A")
    rfl rfl rfl rfl rfl

/-- C4: every failure raised inside the try block of `process_request`
(origin check, session-started notification, or the dispatch to a
request-type handler) is caught: `on_processing_error` is invoked with the
original event, the original context and that error (recorded at the end of
the trace), and its return value becomes the final result, so the error does
not propagate past `process_request`. -/
theorem C4_failures_delegate_to_error_hook (h : Handlers) (app_id : Option String)
    (event context : PyVal) (e : PyErr) (t : List HandlerCall)
    (herr : tryBody h app_id event = (Except.error e, t)) :
    process_request h app_id event context =
      (h.on_processing_error event context e,
       t ++ [HandlerCall.errorCall event context e]) := by
  unfold process_request
  simp only [herr]

/-- Witness for C4: an event with no `session` key raises a KeyError, which is
delivered to the error hook and converted into its return value. -/
theorem C4_failures_delegate_to_error_hook_witness :
    process_request okHandlers Option.none (PyVal.dict []) PyVal.none =
      (Except.ok (PyVal.str "recovered"),
       [HandlerCall.errorCall (PyVal.dict []) PyVal.none (PyErr.keyError "session")]) :=
  C4_failures_delegate_to_error_hook okHandlers Option.none (PyVal.dict []) PyVal.none
    (PyErr.keyError "session") [] rfl

theorem invokeOn_trace_shape (n : HandlerName) (f : PyVal → PyVal → Except PyErr PyVal)
    (event : PyVal) :
    (invokeOn n f event).2 = [] ∨
      ∃ req sess, (invokeOn n f event).2 = [HandlerCall.call n req sess] := by
  unfold invokeOn
  rcases getItem event "request" with e | req
  · exact Or.inl rfl
  rcases getItem event "session" with e | sess
  · exact Or.inl rfl
  exact Or.inr ⟨req, sess, rfl⟩

theorem dispatchStep_trace_shape (h : Handlers) (event : PyVal) :
    (dispatchStep h event).2 = [] ∨
      ∃ n req2 sess2, n ≠ HandlerName.sessionStarted ∧
        (dispatchStep h event).2 = [HandlerCall.call n req2 sess2] := by
  have key : ∀ (n : HandlerName) (f : PyVal → PyVal → Except PyErr PyVal),
      n ≠ HandlerName.sessionStarted →
      ((invokeOn n f event).2 = [] ∨
        ∃ n2 req2 sess2, n2 ≠ HandlerName.sessionStarted ∧
          (invokeOn n f event).2 = [HandlerCall.call n2 req2 sess2]) := by
    intro n f hn
    rcases invokeOn_trace_shape n f event with he | ⟨r, s2, he⟩
    · exact Or.inl he
    · exact Or.inr ⟨n, r, s2, hn, he⟩
  unfold dispatchStep
  split
  · exact Or.inl rfl
  split
  · exact Or.inl rfl
  split_ifs with h1 h2 h3
  · exact key _ _ (by decide)
  · split
    · exact Or.inl rfl
    · split_ifs <;> exact key _ _ (by decide)
  · exact key _ _ (by decide)
  · exact Or.inl rfl

theorem requestCalls_append (a b : List HandlerCall) :
    requestCalls (a ++ b) = requestCalls a ++ requestCalls b := by
  simp [requestCalls, List.filter_append]

theorem process_reach_components {h : Handlers} {app_id : Option String}
    {event sess : PyVal}
    (horigin : originCheck app_id event = Except.ok ())
    (hsess : getItem event "session" = Except.ok sess)
    (hstep : newStepOk h event sess) :
    ∃ pre, (pre = [] ∨ ∃ r s2, pre = [HandlerCall.call HandlerName.sessionStarted r s2]) ∧
      tryBody h app_id event = ((dispatchStep h event).1, pre ++ (dispatchStep h event).2) := by
  obtain ⟨newv, hnew, hcase⟩ := hstep
  rcases hcase with htr | ⟨htr, req, rid, u, hreq, hrid, hss⟩
  · refine ⟨[], Or.inl rfl, ?_⟩
    rw [tryBody_reach_not_new horigin hsess hnew htr]
    rfl
  · refine ⟨[HandlerCall.call HandlerName.sessionStarted (PyVal.dict [("requestId", rid)]) sess],
      Or.inr ⟨_, _, rfl⟩, ?_⟩
    rw [tryBody_reach_new horigin hsess hnew htr hreq hrid hss]
    rfl

theorem requestCalls_pre_nil {pre : List HandlerCall}
    (hpre : pre = [] ∨ ∃ r s2, pre = [HandlerCall.call HandlerName.sessionStarted r s2]) :
    requestCalls pre = [] := by
  rcases hpre with rfl | ⟨r, s2, rfl⟩
  · rfl
  · rfl

theorem countP_err_pre_zero {pre : List HandlerCall}
    (hpre : pre = [] ∨ ∃ r s2, pre = [HandlerCall.call HandlerName.sessionStarted r s2]) :
    pre.countP HandlerCall.isErrorCall = 0 := by
  rcases hpre with rfl | ⟨r, s2, rfl⟩
  · rfl
  · rfl

theorem process_requestCalls_reach {h : Handlers} {app_id : Option String}
    {event context sess : PyVal}
    (horigin : originCheck app_id event = Except.ok ())
    (hsess : getItem event "session" = Except.ok sess)
    (hstep : newStepOk h event sess) :
    requestCalls (process_request h app_id event context).2
      = requestCalls (dispatchStep h event).2 := by
  obtain ⟨pre, hpre, htb⟩ := process_reach_components horigin hsess hstep
  have hpre0 := requestCalls_pre_nil hpre
  unfold process_request
  rcases hd : (dispatchStep h event).1 with e | v
  · simp only [htb, hd]
    rw [requestCalls_append, requestCalls_append, hpre0]
    simp [requestCalls, HandlerCall.isRequestCall]
  · simp only [htb, hd]
    rw [requestCalls_append, hpre0]
    simp

theorem dispatchStep_countP_ss (h : Handlers) (event : PyVal) :
    ((dispatchStep h event).2).countP HandlerCall.isSessionStartedCall = 0 := by
  rcases dispatchStep_trace_shape h event with he | ⟨n, r, s2, hn, he⟩
  · rw [he]; rfl
  · rw [he]
    simp [List.countP_cons, HandlerCall.isSessionStartedCall, hn]

theorem dispatchStep_countP_err (h : Handlers) (event : PyVal) :
    ((dispatchStep h event).2).countP HandlerCall.isErrorCall = 0 := by
  rcases dispatchStep_trace_shape h event with he | ⟨n, r, s2, hn, he⟩
  · rw [he]; rfl
  · rw [he]
    simp [List.countP_cons, HandlerCall.isErrorCall]

theorem dispatchStep_unknown_type (h : Handlers) {event req t : PyVal}
    (hreq : getItem event "request" = Except.ok req)
    (htype : getItem req "type" = Except.ok t)
    (h1 : pyEqStr t "LaunchRequest" = false)
    (h2 : pyEqStr t "IntentRequest" = false)
    (h3 : pyEqStr t "SessionEndedRequest" = false) :
    dispatchStep h event = (Except.ok PyVal.none, []) := by
  unfold dispatchStep
  simp only [hreq, htype, h1, h2, h3, Bool.false_eq_true, if_false]

theorem dispatchStep_intent {h : Handlers} {event req iname : PyVal}
    (hreq : getItem event "request" = Except.ok req)
    (htype : getItem req "type" = Except.ok (PyVal.str "IntentRequest"))
    (hname : _get_intent_name req = Except.ok iname) :
    dispatchStep h event =
      invokeOn (builtinTarget iname) (handlerFor h (builtinTarget iname)) event := by
  unfold dispatchStep
  simp only [hreq, htype, hname,
    show pyEqStr (PyVal.str "IntentRequest") "LaunchRequest" = false from rfl,
    show pyEqStr (PyVal.str "IntentRequest") "IntentRequest" = true from rfl,
    Bool.false_eq_true, if_false, if_true]
  unfold builtinTarget
  split_ifs <;> rfl

theorem builtinTarget_ne_sessionStarted (iname : PyVal) :
    builtinTarget iname ≠ HandlerName.sessionStarted := by
  unfold builtinTarget
  split_ifs <;> decide

theorem pyEqStr_false_of_ne {v : PyVal} {s : String} (hne : v ≠ PyVal.str s) :
    pyEqStr v s = false := by
  cases hb : pyEqStr v s
  · rfl
  · exact absurd ((pyEqStr_true_iff v s).mp hb) hne

theorem builtinTarget_eq_intent {iname : PyVal} (hn : iname ∉ builtinIntentNames) :
    builtinTarget iname = HandlerName.intent := by
  simp only [builtinIntentNames, List.mem_cons, List.mem_singleton, not_or] at hn
  obtain ⟨n1, n2, n3, n4, n5, n6, n7, -⟩ := hn
  unfold builtinTarget
  simp only [pyEqStr_false_of_ne n1, pyEqStr_false_of_ne n2, pyEqStr_false_of_ne n3,
    pyEqStr_false_of_ne n4, pyEqStr_false_of_ne n5, pyEqStr_false_of_ne n6,
    pyEqStr_false_of_ne n7, Bool.false_eq_true, if_false]

/-- C7: an event whose request type is none of "LaunchRequest",
"IntentRequest" and "SessionEndedRequest", and which reaches the dispatch
without raising, invokes no request-type handler and no error hook; the
result is the initial `None` rather than a response or an error. -/
theorem C7_unknown_type_returns_none (h : Handlers) (app_id : Option String)
    (event context sess req t : PyVal)
    (horigin : originCheck app_id event = Except.ok ())
    (hsess : getItem event "session" = Except.ok sess)
    (hstep : newStepOk h event sess)
    (hreq : getItem event "request" = Except.ok req)
    (htype : getItem req "type" = Except.ok t)
    (h1 : pyEqStr t "LaunchRequest" = false)
    (h2 : pyEqStr t "IntentRequest" = false)
    (h3 : pyEqStr t "SessionEndedRequest" = false) :
    (process_request h app_id event context).1 = Except.ok PyVal.none ∧
      requestCalls (process_request h app_id event context).2 = [] ∧
      ((process_request h app_id event context).2).countP HandlerCall.isErrorCall = 0 := by
  obtain ⟨pre, hpre, htb⟩ := process_reach_components horigin hsess hstep
  have hd := dispatchStep_unknown_type h hreq htype h1 h2 h3
  rw [hd] at htb
  simp only [List.append_nil] at htb
  have hp := process_request_of_tryBody_ok context htb
  rw [hp]
  exact ⟨rfl, requestCalls_pre_nil hpre, countP_err_pre_zero hpre⟩

/-- Witness for C7 at a concrete event whose request type is
"AudioPlayerRequest". -/
theorem C7_unknown_type_returns_none_witness :
    (process_request okHandlers Option.none evOther PyVal.none).1 = Except.ok PyVal.none ∧
      requestCalls (process_request okHandlers Option.none evOther PyVal.none).2 = [] ∧
      ((process_request okHandlers Option.none evOther PyVal.none).2).countP
        HandlerCall.isErrorCall = 0 :=
  C7_unknown_type_returns_none okHandlers Option.none evOther PyVal.none sessOldA reqOther
    (PyVal.str "AudioPlayerRequest") rfl rfl ⟨PyVal.bool false, rfl, Or.inl rfl⟩
    rfl rfl rfl rfl rfl

theorem process_intent_requestCalls {h : Handlers} {app_id : Option String}
    {event sess req iname : PyVal} (context : PyVal)
    (horigin : originCheck app_id event = Except.ok ())
    (hsess : getItem event "session" = Except.ok sess)
    (hstep : newStepOk h event sess)
    (hreq : getItem event "request" = Except.ok req)
    (htype : getItem req "type" = Except.ok (PyVal.str "IntentRequest"))
    (hname : _get_intent_name req = Except.ok iname) :
    requestCalls (process_request h app_id event context).2
      = [HandlerCall.call (builtinTarget iname) req sess] := by
  rw [process_requestCalls_reach horigin hsess hstep]
  rw [dispatchStep_intent hreq htype hname]
  rw [invokeOn_eq hreq hsess]
  have hne := builtinTarget_ne_sessionStarted iname
  simp [requestCalls, HandlerCall.isRequestCall, hne]

/-- C2: for an intent-type event that reaches the dispatch, each of the seven
reserved built-in intent names routes to exactly its dedicated handler (the
request-type handler invocations of the trace are exactly that one call, so
the generic intent handler is never invoked for them), and any other resolved
intent name routes to exactly the generic intent handler. -/
theorem C2_builtin_intent_routing (h : Handlers) (app_id : Option String)
    (event context sess req iname : PyVal)
    (horigin : originCheck app_id event = Except.ok ())
    (hsess : getItem event "session" = Except.ok sess)
    (hstep : newStepOk h event sess)
    (hreq : getItem event "request" = Except.ok req)
    (htype : getItem req "type" = Except.ok (PyVal.str "IntentRequest"))
    (hname : _get_intent_name req = Except.ok iname) :
    (iname = PyVal.str "AMAZON.HelpIntent" →
      requestCalls (process_request h app_id event context).2
        = [HandlerCall.call HandlerName.helpIntent req sess]) ∧
    (iname = PyVal.str "AMAZON.StopIntent" →
      requestCalls (process_request h app_id event context).2
        = [HandlerCall.call HandlerName.stopIntent req sess]) ∧
    (iname = PyVal.str "AMAZON.CancelIntent" →
      requestCalls (process_request h app_id event context).2
        = [HandlerCall.call HandlerName.cancelIntent req sess]) ∧
    (iname = PyVal.str "AMAZON.NoIntent" →
      requestCalls (process_request h app_id event context).2
        = [HandlerCall.call HandlerName.noIntent req sess]) ∧
    (iname = PyVal.str "AMAZON.RepeatIntent" →
      requestCalls (process_request h app_id event context).2
        = [HandlerCall.call HandlerName.repeatIntent req sess]) ∧
    (iname = PyVal.str "AMAZON.StartOverIntent" →
      requestCalls (process_request h app_id event context).2
        = [HandlerCall.call HandlerName.startOverIntent req sess]) ∧
    (iname = PyVal.str "AMAZON.YesIntent" →
      requestCalls (process_request h app_id event context).2
        = [HandlerCall.call HandlerName.yesIntent req sess]) ∧
    (iname ∉ builtinIntentNames →
      requestCalls (process_request h app_id event context).2
        = [HandlerCall.call HandlerName.intent req sess]) := by
  have hmain := process_intent_requestCalls context horigin hsess hstep hreq htype hname
  refine ⟨?_, ?_, ?_, ?_, ?_, ?_, ?_, ?_⟩ <;> intro hcase
  · subst hcase; exact hmain
  · subst hcase; exact hmain
  · subst hcase; exact hmain
  · subst hcase; exact hmain
  · subst hcase; exact hmain
  · subst hcase; exact hmain
  · subst hcase; exact hmain
  · rw [builtinTarget_eq_intent hcase] at hmain
    exact hmain

/-- Witness for C2 at a concrete AMAZON.YesIntent event: the dedicated yes
handler is the only request-type handler invoked. -/
theorem C2_builtin_intent_routing_witness :
    requestCalls (process_request okHandlers Option.none evYes PyVal.none).2
      = [HandlerCall.call HandlerName.yesIntent reqYes sessOldA] := by
  obtain ⟨-, -, -, -, -, -, hyes, -⟩ :=
    C2_builtin_intent_routing okHandlers Option.none evYes PyVal.none sessOldA reqYes
      (PyVal.str "AMAZON.YesIntent") rfl rfl ⟨PyVal.bool false, rfl, Or.inl rfl⟩ rfl rfl rfl
  exact hyes rfl

/-- C3: for a new-session event that passes the origin check and whose
request id is readable, and whose session-started hook returns normally, the
session-started hook is invoked exactly once and first (before any
request-type handler), receiving the synthesized request containing only the
copied `requestId` and the full session object; and replacing the hook by any
other normally-returning hook changes neither the final result nor the trace,
so the hook's return value does not affect the final result. -/
theorem C3_session_started_notification (h : Handlers)
    (f : PyVal → PyVal → Except PyErr PyVal) (app_id : Option String)
    (event context sess newv req rid u w : PyVal)
    (horigin : originCheck app_id event = Except.ok ())
    (hsess : getItem event "session" = Except.ok sess)
    (hnew : getItem sess "new" = Except.ok newv)
    (htr : truthy newv = true)
    (hreq : getItem event "request" = Except.ok req)
    (hrid : getItem req "requestId" = Except.ok rid)
    (hss : h.on_session_started (PyVal.dict [("requestId", rid)]) sess = Except.ok u)
    (hf : f (PyVal.dict [("requestId", rid)]) sess = Except.ok w) :
    (∃ rest,
        (process_request h app_id event context).2
          = HandlerCall.call HandlerName.sessionStarted
              (PyVal.dict [("requestId", rid)]) sess :: rest ∧
          rest.countP HandlerCall.isSessionStartedCall = 0) ∧
      process_request (h.withSessionStarted f) app_id event context
        = process_request h app_id event context := by
  have htb := tryBody_reach_new horigin hsess hnew htr hreq hrid hss
  have hss2 : (h.withSessionStarted f).on_session_started
      (PyVal.dict [("requestId", rid)]) sess = Except.ok w := hf
  have htb2 := tryBody_reach_new horigin hsess hnew htr hreq hrid hss2
  have hd2 : dispatchStep (h.withSessionStarted f) event = dispatchStep h event := rfl
  constructor
  · unfold process_request
    rcases hd : (dispatchStep h event).1 with e | v
    · simp only [htb, hd]
      refine ⟨(dispatchStep h event).2 ++ [HandlerCall.errorCall event context e],
        by simp, ?_⟩
      rw [List.countP_append, dispatchStep_countP_ss]
      rfl
    · simp only [htb, hd]
      exact ⟨(dispatchStep h event).2, rfl, dispatchStep_countP_ss h event⟩
  · unfold process_request
    rw [htb2, hd2, htb]
    rfl

/-- Witness for C3 at a concrete new-session launch event. -/
theorem C3_session_started_notification_witness :
    (∃ rest,
        (process_request okHandlers Option.none evLaunchA PyVal.none).2
          = HandlerCall.call HandlerName.sessionStarted
              (PyVal.dict [("requestId", PyVal.str "r1")]) sessNewA :: rest ∧
          rest.countP HandlerCall.isSessionStartedCall = 0) ∧
      process_request
          (okHandlers.withSessionStarted (fun _ _ => Except.ok (PyVal.str "ignored")))
          Option.none evLaunchA PyVal.none
        = process_request okHandlers Option.none evLaunchA PyVal.none :=
  C3_session_started_notification okHandlers (fun _ _ => Except.ok (PyVal.str "ignored"))
    Option.none evLaunchA PyVal.none sessNewA (PyVal.bool true) reqLaunch (PyVal.str "r1")
    (PyVal.str "started") (PyVal.str "ignored") rfl rfl rfl rfl rfl rfl rfl rfl

/-- C9: for an intent-type event that reaches the dispatch and whose request
either lacks an intent sub-object or has an intent dictionary without a name
field, the resolved intent name is `None` (matching none of the reserved
names), so exactly the generic intent handler is invoked, and the dispatch
itself does not fail: with a normally returning generic handler its value is
the final result and the error hook is never invoked. -/
theorem C9_missing_intent_name_generic (h : Handlers) (app_id : Option String)
    (event context sess req v : PyVal)
    (horigin : originCheck app_id event = Except.ok ())
    (hsess : getItem event "session" = Except.ok sess)
    (hstep : newStepOk h event sess)
    (hreq : getItem event "request" = Except.ok req)
    (htype : getItem req "type" = Except.ok (PyVal.str "IntentRequest"))
    (hmiss : pyIn "intent" req = Except.ok false ∨
      (∃ li, getItem req "intent" = Except.ok (PyVal.dict li) ∧
        lookupEntries li "name" = Option.none))
    (hint : h.on_intent req sess = Except.ok v) :
    _get_intent_name req = Except.ok PyVal.none ∧
      (process_request h app_id event context).1 = Except.ok v ∧
      requestCalls (process_request h app_id event context).2
        = [HandlerCall.call HandlerName.intent req sess] ∧
      ((process_request h app_id event context).2).countP HandlerCall.isErrorCall = 0 := by
  have hname : _get_intent_name req = Except.ok PyVal.none := by
    rcases hmiss with hni | ⟨li, hgi, hln⟩
    · have hgi0 : _get_intent req = Except.ok PyVal.none := by
        unfold _get_intent
        simp [hni]
      unfold _get_intent_name
      simp [hgi0, isNone]
    · obtain ⟨l, rfl, hlk⟩ := getItem_ok_shape hgi
      have hpi : pyIn "intent" (PyVal.dict l) = Except.ok true := pyIn_true_of_lookup hlk
      have hgi0 : _get_intent (PyVal.dict l) = Except.ok (PyVal.dict li) := by
        unfold _get_intent
        simp [hpi, getItem, hlk]
      unfold _get_intent_name
      simp [hgi0, isNone, pyIn, hln]
  have hd : dispatchStep h event
      = (h.on_intent req sess, [HandlerCall.call HandlerName.intent req sess]) := by
    rw [dispatchStep_intent hreq htype hname,
      show builtinTarget PyVal.none = HandlerName.intent from rfl,
      invokeOn_eq hreq hsess]
    rfl
  obtain ⟨pre, hpre, htb⟩ := process_reach_components horigin hsess hstep
  simp only [hd, hint] at htb
  have hp := process_request_of_tryBody_ok context htb
  rw [hp]
  refine ⟨hname, rfl, ?_, ?_⟩
  · rw [requestCalls_append, requestCalls_pre_nil hpre]
    simp [requestCalls, HandlerCall.isRequestCall]
  · rw [List.countP_append, countP_err_pre_zero hpre]
    rfl

/-- Witness for C9 at a concrete intent event with no intent sub-object. -/
theorem C9_missing_intent_name_generic_witness :
    _get_intent_name reqNoIntent = Except.ok PyVal.none ∧
      (process_request okHandlers Option.none evNoIntent PyVal.none).1
        = Except.ok (PyVal.str "intent") ∧
      requestCalls (process_request okHandlers Option.none evNoIntent PyVal.none).2
        = [HandlerCall.call HandlerName.intent reqNoIntent sessOldA] ∧
      ((process_request okHandlers Option.none evNoIntent PyVal.none).2).countP
        HandlerCall.isErrorCall = 0 :=
  C9_missing_intent_name_generic okHandlers Option.none evNoIntent PyVal.none sessOldA
    reqNoIntent (PyVal.str "intent") rfl rfl ⟨PyVal.bool false, rfl, Or.inl rfl⟩
    rfl rfl (Or.inl rfl) rfl

/-- C5: `_get_slot_value` never raises: it returns `None` whenever the slot
does not exist (slot name not in the slots mapping, intent absent) or the
existence check itself raised, `None` whenever any structural anomaly makes
the read raise, and the slot's `value` field when the slot exists with a
value. -/
theorem C5_get_slot_value_absent_or_value (slot_name : String) (req : PyVal) :
    (_slot_exists slot_name req ≠ Except.ok true →
      _get_slot_value slot_name req = PyVal.none) ∧
    (∀ e, slotValueBody slot_name req = Except.error e →
      _get_slot_value slot_name req = PyVal.none) ∧
    (∀ l li ls lv v, req = PyVal.dict l →
      lookupEntries l "intent" = Option.some (PyVal.dict li) →
      lookupEntries li "slots" = Option.some (PyVal.dict ls) →
      lookupEntries ls slot_name = Option.some (PyVal.dict lv) →
      lookupEntries lv "value" = Option.some v →
      _get_slot_value slot_name req = v) := by
  refine ⟨?_, ?_, ?_⟩
  · intro hne
    unfold _get_slot_value
    rcases hb : slotValueBody slot_name req with e | w
    · rfl
    · rcases hse : _slot_exists slot_name req with e2 | b
      · unfold slotValueBody at hb
        rw [hse] at hb
        exact Except.noConfusion hb
      · cases b with
        | false =>
          unfold slotValueBody at hb
          rw [hse] at hb
          simp only [Bool.false_eq_true, if_false] at hb
          simp only [← (Except.ok.injEq _ _).mp hb]
        | true => exact absurd hse hne
  · intro e he
    unfold _get_slot_value
    simp only [he]
  · intro l li ls lv v hre hI hS hsl hV
    subst hre
    have hgi : _get_intent (PyVal.dict l) = Except.ok (PyVal.dict li) := by
      unfold _get_intent
      simp [pyIn, hI, getItem]
    have hse : _slot_exists slot_name (PyVal.dict l) = Except.ok true := by
      unfold _slot_exists
      simp [hgi, isNone, getItem, hS, pyIn, hsl]
    have hbody : slotValueBody slot_name (PyVal.dict l) = Except.ok v := by
      unfold slotValueBody
      simp [hse, hgi, getItem, hS, hsl, hV]
    unfold _get_slot_value
    simp [hbody]

/-- Witness for C5: a malformed request (`None`) yields `None`, and a
well-formed request with a "color" slot yields its value "red". -/
theorem C5_get_slot_value_absent_or_value_witness :
    _get_slot_value "color" PyVal.none = PyVal.none ∧
      _get_slot_value "color" reqColor = PyVal.str "red" := by
  constructor
  · refine (C5_get_slot_value_absent_or_value "color" PyVal.none).1 ?_
    intro hc
    rw [show _slot_exists "color" PyVal.none
        = Except.error (PyErr.typeError "argument is not iterable") from rfl] at hc
    exact Except.noConfusion hc
  · exact (C5_get_slot_value_absent_or_value "color" reqColor).2.2 _ _ _ _ _
      rfl rfl rfl rfl rfl

/-- C6 counterexample: for a request whose intent is present but carries no
`slots` mapping, `_slot_exists` raises a KeyError instead of returning the
boolean `false`, refuting the claim that it is a total boolean function that
never fails for an intent lacking a slots mapping. -/
theorem C6_slot_exists_counterexample :
    _slot_exists "color" reqNoSlots = Except.error (PyErr.keyError "slots") ∧
      _slot_exists "color" reqNoSlots ≠ Except.ok false := by
  constructor
  · rfl
  · intro hc
    rw [show _slot_exists "color" reqNoSlots
        = Except.error (PyErr.keyError "slots") from rfl] at hc
    exact Except.noConfusion hc

/-- C6 (amended): `_slot_exists` returns false without failing when the
intent is absent; when an intent dictionary with a `slots` dictionary is
present it returns, without failing, whether the slots mapping contains the
slot name; but when an intent dictionary without a `slots` key is present it
raises a KeyError instead of returning false. -/
theorem C6_slot_exists_amended (slot_name : String) (req : PyVal) :
    (pyIn "intent" req = Except.ok false →
      _slot_exists slot_name req = Except.ok false) ∧
    (∀ l li, req = PyVal.dict l →
      lookupEntries l "intent" = Option.some (PyVal.dict li) →
      lookupEntries li "slots" = Option.none →
      _slot_exists slot_name req = Except.error (PyErr.keyError "slots")) ∧
    (∀ l li ls, req = PyVal.dict l →
      lookupEntries l "intent" = Option.some (PyVal.dict li) →
      lookupEntries li "slots" = Option.some (PyVal.dict ls) →
      _slot_exists slot_name req = Except.ok (lookupEntries ls slot_name).isSome) := by
  refine ⟨?_, ?_, ?_⟩
  · intro hni
    have hgi : _get_intent req = Except.ok PyVal.none := by
      unfold _get_intent
      simp [hni]
    unfold _slot_exists
    simp [hgi, isNone]
  · intro l li hre hI hS
    subst hre
    have hgi : _get_intent (PyVal.dict l) = Except.ok (PyVal.dict li) := by
      unfold _get_intent
      simp [pyIn, hI, getItem]
    unfold _slot_exists
    simp [hgi, isNone, getItem, hS]
  · intro l li ls hre hI hS
    subst hre
    have hgi : _get_intent (PyVal.dict l) = Except.ok (PyVal.dict li) := by
      unfold _get_intent
      simp [pyIn, hI, getItem]
    unfold _slot_exists
    simp [hgi, isNone, getItem, hS, pyIn]

/-- Witness for the amended C6: intent present without slots raises the
KeyError; intent present with slots returns true for an existing slot. -/
theorem C6_slot_exists_amended_witness :
    _slot_exists "color" reqNoSlots = Except.error (PyErr.keyError "slots") ∧
      _slot_exists "color" reqColor = Except.ok true := by
  constructor
  · exact (C6_slot_exists_amended "color" reqNoSlots).2.1 _ _ rfl rfl rfl
  · exact (C6_slot_exists_amended "color" reqColor).2.2 _ _ _ rfl rfl rfl

theorem splitOnSep_ne_nil (sep : Nat) (l : List Nat) : splitOnSep sep l ≠ [] := by
  cases l with
  | nil => simp [splitOnSep]
  | cons c rest =>
    unfold splitOnSep
    by_cases hc : c = sep
    · simp [hc]
    · simp only [hc, if_false]
      rcases splitOnSep sep rest with _ | ⟨x, xs⟩ <;> simp

theorem splitOnSep_no_sep {sep : Nat} {l : List Nat}
    (hl : ∀ c ∈ l, c ≠ sep) : splitOnSep sep l = [l] := by
  induction l with
  | nil => rfl
  | cons c rest ih =>
    have hc : c ≠ sep := hl c (List.mem_cons_self c rest)
    have hrest : splitOnSep sep rest = [rest] :=
      ih (fun x hx => hl x (List.mem_cons_of_mem c hx))
    unfold splitOnSep
    simp [hc, hrest]

theorem splitOnSep_mid {sep : Nat} {a : List Nat} (b : List Nat)
    (ha : ∀ c ∈ a, c ≠ sep) :
    splitOnSep sep (a ++ sep :: b) = a :: splitOnSep sep b := by
  induction a with
  | nil => simp [splitOnSep]
  | cons c arest ih =>
    have hc : c ≠ sep := ha c (List.mem_cons_self c arest)
    have htail := ih (fun x hx => ha x (List.mem_cons_of_mem c hx))
    rw [List.cons_append, splitOnSep]
    simp [hc, htail]

theorem natToDigitsAux_digits :
    ∀ (fuel n : Nat), ∀ c ∈ natToDigitsAux fuel n, 48 ≤ c ∧ c ≤ 57 := by
  intro fuel
  induction fuel with
  | zero => intro n c hc; simp [natToDigitsAux] at hc
  | succ fuel ih =>
    intro n c hc
    unfold natToDigitsAux at hc
    by_cases hn : n < 10
    · simp only [hn, if_true] at hc
      simp only [List.mem_singleton] at hc
      omega
    · simp only [hn, if_false, List.mem_append, List.mem_singleton] at hc
      rcases hc with hc | hc
      · exact ih (n / 10) c hc
      · have : n % 10 < 10 := Nat.mod_lt _ (by omega)
        omega

theorem natToDigitsAux_ne_nil (fuel n : Nat) (hf : 0 < fuel) :
    natToDigitsAux fuel n ≠ [] := by
  cases fuel with
  | zero => omega
  | succ fuel =>
    unfold natToDigitsAux
    by_cases hn : n < 10
    · simp [hn]
    · simp [hn]

theorem parseDigitsAux_append {a : List Nat} {acc m : Nat} (b : List Nat)
    (h : parseDigitsAux acc a = Option.some m) :
    parseDigitsAux acc (a ++ b) = parseDigitsAux m b := by
  induction a generalizing acc with
  | nil =>
    unfold parseDigitsAux at h
    cases h
    rfl
  | cons c arest ih =>
    rw [List.cons_append, parseDigitsAux]
    rw [parseDigitsAux] at h
    by_cases hc : isDigitCode c = true
    · simp only [hc, if_true] at h ⊢
      exact ih h
    · simp only [hc, if_false] at h
      exact Option.noConfusion h

theorem parseDigitsAux_natToDigitsAux :
    ∀ (fuel n acc : Nat), n < fuel →
      parseDigitsAux acc (natToDigitsAux fuel n)
        = Option.some (acc * 10 ^ (natToDigitsAux fuel n).length + n) := by
  intro fuel
  induction fuel with
  | zero => intro n acc hn; omega
  | succ fuel ih =>
    intro n acc hn
    by_cases h10 : n < 10
    · unfold natToDigitsAux
      simp only [h10, if_true]
      unfold parseDigitsAux
      have hd : isDigitCode (48 + n) = true := by
        unfold isDigitCode
        simp only [Bool.and_eq_true, decide_eq_true_eq]
        omega
      simp only [hd, if_true]
      unfold parseDigitsAux
      simp only [List.length_singleton, pow_one]
      congr 1
      omega
    · have hdiv : n / 10 < n := Nat.div_lt_self (by omega) (by omega)
      have hfuel : n / 10 < fuel := by omega
      unfold natToDigitsAux
      simp only [h10, if_false]
      have hmid := ih (n / 10) acc hfuel
      rw [parseDigitsAux_append _ hmid]
      unfold parseDigitsAux
      have hd : isDigitCode (48 + n % 10) = true := by
        unfold isDigitCode
        simp only [Bool.and_eq_true, decide_eq_true_eq]
        have : n % 10 < 10 := Nat.mod_lt _ (by omega)
        omega
      simp only [hd, if_true]
      unfold parseDigitsAux
      congr 1
      have hmod : n % 10 < 10 := Nat.mod_lt _ (by omega)
      have hdm : n / 10 * 10 + n % 10 = n := by omega
      have hlen : (natToDigitsAux fuel (n / 10) ++ [48 + n % 10]).length
          = (natToDigitsAux fuel (n / 10)).length + 1 := by
        simp
      rw [hlen]
      calc (acc * 10 ^ (natToDigitsAux fuel (n / 10)).length + n / 10) * 10
            + (48 + n % 10 - 48)
          = acc * (10 ^ (natToDigitsAux fuel (n / 10)).length * 10)
            + (n / 10 * 10 + n % 10) := by ring_nf; omega
        _ = acc * 10 ^ ((natToDigitsAux fuel (n / 10)).length + 1) + n := by
            rw [hdm, pow_succ]

theorem parseDigits_natToDigits (n : Nat) :
    parseDigits (natToDigits n) = Option.some n := by
  unfold natToDigits parseDigits
  have hne := natToDigitsAux_ne_nil (n + 1) n (by omega)
  rcases hl : natToDigitsAux (n + 1) n with _ | ⟨c, rest⟩
  · exact absurd hl hne
  · simp only [hl]
    rw [← hl]
    rw [parseDigitsAux_natToDigitsAux (n + 1) n 0 (by omega)]
    simp

theorem pyIntChars_natToDigits (n : Nat) :
    pyIntChars (natToDigits n) = Except.ok ((n : Int)) := by
  have hne := natToDigitsAux_ne_nil (n + 1) n (by omega)
  rcases hl : natToDigits n with _ | ⟨c, rest⟩
  · exact absurd hl hne
  · have hcmem : c ∈ natToDigits n := by rw [hl]; exact List.mem_cons_self c rest
    have hcd := natToDigitsAux_digits (n + 1) n c hcmem
    have h45 : c ≠ 45 := by omega
    have h43 : c ≠ 43 := by omega
    unfold pyIntChars
    simp only [h45, h43, if_false]
    rw [← hl, parseDigits_natToDigits]

theorem natToDigits_no_sep (n : Nat) : ∀ c ∈ natToDigits n, c ≠ underscore := by
  intro c hc
  have := natToDigitsAux_digits (n + 1) n c hc
  unfold underscore
  omega

theorem deploymentWord_no_sep : ∀ c ∈ deploymentWord, c ≠ underscore := by
  decide

theorem split_deploymentName (k : Nat) :
    splitOnSep underscore (deploymentName k) = [deploymentWord, natToDigits k] := by
  unfold deploymentName
  rw [splitOnSep_mid _ deploymentWord_no_sep,
    splitOnSep_no_sep (natToDigits_no_sep k)]

theorem twoPartSuffix_deploymentName (k : Nat) :
    twoPartSuffix (deploymentName k) = Option.some ((k : Int)) := by
  unfold twoPartSuffix
  simp only [split_deploymentName, pyIntChars_natToDigits]

theorem deploymentName_inj {a b : Nat} (h : deploymentName a = deploymentName b) :
    a = b := by
  unfold deploymentName at h
  rw [List.append_right_inj] at h
  simp only [List.cons.injEq, true_and] at h
  have := congrArg parseDigits h
  rw [parseDigits_natToDigits, parseDigits_natToDigits] at this
  exact Option.some.inj this

theorem foldl_max_init (l : List Int) :
    ∀ a b : Int, l.foldl max (max a b) = max a (l.foldl max b) := by
  induction l with
  | nil => intro a b; rfl
  | cons c l ih =>
    intro a b
    show l.foldl max (max (max a b) c) = max a (l.foldl max (max b c))
    rw [max_assoc, ih]

theorem loopMax_eq (dirs : List (List Nat)) :
    ∀ m : Int,
      (∀ d ∈ dirs, ∀ a b, splitOnSep underscore d = [a, b] →
        ∃ k, pyIntChars b = Except.ok k) →
      loopMax dirs m = Except.ok ((suffixInts dirs).foldl max m) := by
  induction dirs with
  | nil => intro m hp; rfl
  | cons d rest ih =>
    intro m hp
    have hrest : ∀ d2 ∈ rest, ∀ a b, splitOnSep underscore d2 = [a, b] →
        ∃ k, pyIntChars b = Except.ok k :=
      fun d2 hd2 => hp d2 (List.mem_cons_of_mem d hd2)
    rcases hsp : splitOnSep underscore d with _ | ⟨a, _ | ⟨b, _ | ⟨x, xs⟩⟩⟩
    · have htp : twoPartSuffix d = Option.none := by
        unfold twoPartSuffix
        simp [hsp]
      rw [loopMax]
      simp only [hsp]
      rw [show suffixInts (d :: rest) = suffixInts rest by
        simp [suffixInts, List.filterMap_cons, htp]]
      exact ih m hrest
    · have htp : twoPartSuffix d = Option.none := by
        unfold twoPartSuffix
        simp [hsp]
      rw [loopMax]
      simp only [hsp]
      rw [show suffixInts (d :: rest) = suffixInts rest by
        simp [suffixInts, List.filterMap_cons, htp]]
      exact ih m hrest
    · obtain ⟨k, hk⟩ := hp d (List.mem_cons_self d rest) a b hsp
      have htp : twoPartSuffix d = Option.some k := by
        unfold twoPartSuffix
        simp [hsp, hk]
      rw [loopMax]
      simp only [hsp, hk]
      rw [show suffixInts (d :: rest) = k :: suffixInts rest by
        simp [suffixInts, List.filterMap_cons, htp]]
      have hmax : (if k > m then k else m) = max m k := by
        rcases le_or_lt k m with hkm | hkm
        · rw [if_neg (not_lt.mpr hkm), max_eq_left hkm]
        · rw [if_pos hkm, max_eq_right (le_of_lt hkm)]
      rw [List.foldl_cons, hmax]
      exact ih (max m k) hrest
    · have htp : twoPartSuffix d = Option.none := by
        unfold twoPartSuffix
        simp [hsp]
      rw [loopMax]
      simp only [hsp]
      rw [show suffixInts (d :: rest) = suffixInts rest by
        simp [suffixInts, List.filterMap_cons, htp]]
      exact ih m hrest

theorem suffixInts_append (a b : List (List Nat)) :
    suffixInts (a ++ b) = suffixInts a ++ suffixInts b := by
  simp [suffixInts, List.filterMap_append]

theorem deployDirs_succ (n : Nat) :
    deployDirs (n + 1) = deployDirs n ++ [deploymentName (n + 1)] := by
  unfold deployDirs
  rw [List.range_succ, List.map_append]
  simp

theorem suffixInts_deployDirs (n : Nat) :
    suffixInts (deployDirs n) = (List.range n).map (fun (i : Nat) => ((i : Int) + 1)) := by
  induction n with
  | zero => rfl
  | succ n ih =>
    rw [deployDirs_succ, suffixInts_append, ih, List.range_succ, List.map_append]
    have h1 : suffixInts [deploymentName (n + 1)] = [((n : Int) + 1)] := by
      simp [suffixInts, twoPartSuffix_deploymentName]
    rw [h1]
    rfl

theorem foldl_max_range (n : Nat) :
    ((List.range n).map (fun (i : Nat) => ((i : Int) + 1))).foldl max (-1)
      = if n = 0 then (-1 : Int) else (n : Int) := by
  induction n with
  | zero => rfl
  | succ n ih =>
    rw [List.range_succ, List.map_append, List.foldl_append, ih]
    simp only [List.map_cons, List.map_nil, List.foldl_cons, List.foldl_nil]
    rcases Nat.eq_zero_or_pos n with rfl | hpos
    · norm_num
    · rw [if_neg (by omega), if_neg (by omega)]
      rw [max_eq_right (by omega)]
      push_cast
      ring

theorem hp_deployDirs (n : Nat) :
    ∀ d ∈ deployDirs n, ∀ a b, splitOnSep underscore d = [a, b] →
      ∃ k, pyIntChars b = Except.ok k := by
  intro d hd a b hsp
  unfold deployDirs at hd
  obtain ⟨i, hi, rfl⟩ := List.mem_map.mp hd
  rw [split_deploymentName] at hsp
  simp only [List.cons.injEq, and_true] at hsp
  exact ⟨((i + 1 : Nat) : Int), by rw [← hsp.2]; exact pyIntChars_natToDigits (i + 1)⟩

theorem loopMax_deployDirs (n : Nat) :
    loopMax (deployDirs n) (-1)
      = Except.ok (if n = 0 then (-1 : Int) else (n : Int)) := by
  rw [loopMax_eq _ (-1) (hp_deployDirs n), suffixInts_deployDirs, foldl_max_range]

/-- C8: starting from an empty deployments directory the script creates
`deployment_1`; after `n` runs the directory holds `deployment_1` through
`deployment_n`, and the next run computes one plus the maximum existing
deployment number and creates `deployment_(n+1)`. -/
theorem C8_deployment_numbering (n : Nat) :
    _make_deployment_dir (deployDirs n)
      = Except.ok (deploymentName (n + 1), deployDirs (n + 1)) := by
  have hname : make_deployment_name (deployDirs n)
      = Except.ok (deploymentName (n + 1)) := by
    rcases Nat.eq_zero_or_pos n with rfl | hpos
    · rfl
    · unfold make_deployment_name
      simp only [loopMax_deployDirs n, if_neg (by omega : ¬ n = 0)]
      rw [if_neg (by omega : ¬ ((n : Int) = -1))]
      unfold deploymentName
      have hcast : ((n : Int) + 1) = ((n + 1 : Nat) : Int) := by push_cast; ring
      rw [hcast]
      unfold intToChars
      rw [if_neg (by omega : ¬ (((n + 1 : Nat) : Int) < 0))]
      simp
  unfold _make_deployment_dir
  simp only [hname]
  have hnotmem : deploymentName (n + 1) ∉ deployDirs n := by
    intro hmem
    unfold deployDirs at hmem
    obtain ⟨i, hi, heq⟩ := List.mem_map.mp hmem
    have h2 := deploymentName_inj heq
    have h3 := List.mem_range.mp hi
    omega
  rw [if_neg hnotmem, ← deployDirs_succ]

/-- C10 counterexample: with the single subdirectory `other_-5` — a two-part
name whose second part is the integer -5, so the claimed maximum m is -5 —
the script creates `deployment_1`, not the claimed `deployment_(m+1)` =
`deployment_-4`: suffixes below the -1 seed never update the scan's maximum. -/
theorem C10_two_part_scan_counterexample :
    make_deployment_name [strChars "other_-5"] = Except.ok (strChars "deployment_1") ∧
      strChars "deployment_1" ≠ strChars "deployment_-4" := by
  constructor
  · rfl
  · decide

/-- C10 (amended): the scan considers every two-part name regardless of
prefix; when all two-part names have integer second parts and at least one
exists, the created name is `deployment_(max(m, 0) + 1)` where m is the
maximum of those integer suffixes (the maximum is clamped below at zero, so
a sole `other_7` yields `deployment_8`, while negative suffixes fall back to
`deployment_1`). -/
theorem C10_two_part_scan_amended (dirs : List (List Nat)) (s0 : Int)
    (srest : List Int)
    (hp : ∀ d ∈ dirs, ∀ a b, splitOnSep underscore d = [a, b] →
      ∃ k, pyIntChars b = Except.ok k)
    (hsuf : suffixInts dirs = s0 :: srest) :
    make_deployment_name dirs
      = Except.ok (deploymentWord ++ underscore ::
          intToChars (max (maxOfList s0 srest) 0 + 1)) := by
  unfold make_deployment_name
  simp only [loopMax_eq dirs (-1) hp, hsuf]
  have h1 : List.foldl max (-1) (s0 :: srest) = max (-1) (maxOfList s0 srest) := by
    rw [List.foldl_cons]
    exact foldl_max_init srest (-1) s0
  rw [h1]
  rcases le_or_lt (maxOfList s0 srest) (-1) with hM | hM
  · rw [max_eq_left (by omega), if_pos (by omega : (-1 : Int) = -1),
      max_eq_right (by omega : maxOfList s0 srest ≤ 0)]
  · rw [max_eq_right (by omega : (-1 : Int) ≤ maxOfList s0 srest),
      if_neg (by omega : ¬ (maxOfList s0 srest = -1)),
      max_eq_left (by omega : (0 : Int) ≤ maxOfList s0 srest)]

/-- Witness for the amended C10: a sole directory `other_7` yields
`deployment_8`, not `deployment_1`. -/
theorem C10_two_part_scan_amended_witness :
    make_deployment_name [strChars "other_7"] = Except.ok (strChars "deployment_8") := by
  have hp : ∀ d ∈ [strChars "other_7"], ∀ a b,
      splitOnSep underscore d = [a, b] → ∃ k, pyIntChars b = Except.ok k := by
    intro d hd a b hsp
    rw [List.mem_singleton] at hd
    subst hd
    rw [show splitOnSep underscore (strChars "other_7")
        = [strChars "other", [55]] from rfl] at hsp
    simp only [List.cons.injEq, and_true] at hsp
    exact ⟨7, by rw [← hsp.2]; rfl⟩
  have h := C10_two_part_scan_amended [strChars "other_7"] 7 [] hp rfl
  exact h.trans (by rfl)
